import Mathlib

/-!
Verification of the work-partitioning, worker-execution and aggregation core of
the image-processing-performance-analysis repository
(`sequential_process.py`, `parallel_process.py`, `distributed_process.py`).

Pure shallow embedding: the per-image transform (OpenCV decode/resize/
watermark/encode) is an external side-effecting leaf; we model its outcome by
an oracle `decode : WorkItem → DecodeResult`.  Wall-clock measurements are
modelled as rational-number inputs (the measured values), never computed.
-/

/-- A work item is one `(input_path, output_path)` pair, as built by the
discovery loops in all three scripts. -/
abbrev WorkItem := String × String

/-! ### `np.array_split` (distributed_process.py line 84)

`numpy.array_split(ary, n)` computes `base, extras = divmod(len(ary), n)`,
gives the first `extras` sections `base + 1` elements and the remaining
`n - extras` sections `base` elements, slicing contiguously in order.
We embed it as the list of section sizes followed by contiguous take/drop. -/

/-- Section sizes of `np.array_split` for length `L` into `n` sections:
`L % n` sections of `L / n + 1` items, then `n - L % n` sections of `L / n`. -/
def sectionSizes (L n : Nat) : List Nat :=
  List.replicate (L % n) (L / n + 1) ++ List.replicate (n - L % n) (L / n)

/-- Cut `xs` into contiguous pieces of the given sizes, in order. -/
def splitBySizes {α : Type} : List Nat → List α → List (List α)
  | [], _ => []
  | s :: ss, xs => xs.take s :: splitBySizes ss (xs.drop s)

/-- `np.array_split(xs, n)` (raises `ValueError` when `n = 0`; total here, the
`n = 0` error path is modelled in `mainTrace` below). -/
def array_split {α : Type} (xs : List α) (n : Nat) : List (List α) :=
  splitBySizes (sectionSizes xs.length n) xs

theorem sectionSizes_length (L n : Nat) (h : 0 < n) :
    (sectionSizes L n).length = n := by
  have := Nat.mod_lt L h
  simp [sectionSizes]
  omega

theorem sectionSizes_sum (L n : Nat) (h : 0 < n) :
    (sectionSizes L n).sum = L := by
  have hmod : n * (L / n) + L % n = L := Nat.div_add_mod L n
  have hlt : L % n < n := Nat.mod_lt L h
  simp [sectionSizes, List.sum_replicate, smul_eq_mul]
  calc L % n * (L / n + 1) + (n - L % n) * (L / n)
      = L % n * (L / n) + L % n + (n - L % n) * (L / n) := by ring
    _ = (L % n + (n - L % n)) * (L / n) + L % n := by ring
    _ = n * (L / n) + L % n := by
        have : L % n + (n - L % n) = n := by omega
        rw [this]
    _ = L := hmod

theorem splitBySizes_length {α : Type} (ss : List Nat) (xs : List α) :
    (splitBySizes ss xs).length = ss.length := by
  induction ss generalizing xs with
  | nil => rfl
  | cons s ss ih => simp [splitBySizes, ih]

theorem splitBySizes_map_length {α : Type} (ss : List Nat) (xs : List α)
    (h : ss.sum ≤ xs.length) :
    (splitBySizes ss xs).map List.length = ss := by
  induction ss generalizing xs with
  | nil => rfl
  | cons s ss ih =>
    have hs : s ≤ xs.length := by
      have : s ≤ s + ss.sum := Nat.le_add_right _ _
      calc s ≤ s + ss.sum := this
        _ = (s :: ss).sum := by simp
        _ ≤ xs.length := h
    have hrest : ss.sum ≤ (xs.drop s).length := by
      simp only [List.length_drop]
      have : (s :: ss).sum = s + ss.sum := by simp
      omega
    simp [splitBySizes, ih _ hrest, List.length_take, Nat.min_eq_left hs]

theorem splitBySizes_flatten {α : Type} (ss : List Nat) (xs : List α)
    (h : ss.sum = xs.length) :
    (splitBySizes ss xs).flatten = xs := by
  induction ss generalizing xs with
  | nil =>
    simp at h
    simp [splitBySizes, List.eq_nil_of_length_eq_zero h.symm]
  | cons s ss ih =>
    have hrest : ss.sum = (xs.drop s).length := by
      simp only [List.length_drop]
      simp only [List.sum_cons] at h
      omega
    simp [splitBySizes, ih _ hrest]

theorem array_split_map_length {α : Type} (xs : List α) (n : Nat) (h : 0 < n) :
    (array_split xs n).map List.length = sectionSizes xs.length n := by
  apply splitBySizes_map_length
  rw [sectionSizes_sum _ _ h]

theorem array_split_flatten {α : Type} (xs : List α) (n : Nat) (h : 0 < n) :
    (array_split xs n).flatten = xs := by
  apply splitBySizes_flatten
  rw [sectionSizes_sum _ _ h]

theorem array_split_length {α : Type} (xs : List α) (n : Nat) (h : 0 < n) :
    (array_split xs n).length = n := by
  unfold array_split
  rw [splitBySizes_length, sectionSizes_length _ _ h]

/-- C1: for every item list of length `L` and worker count `n > 0`,
`np.array_split` (the partition step at distributed_process.py:84) produces
exactly `n` contiguous chunks; the chunk-length list is exactly `L % n` chunks
of `L / n + 1` followed by `n - L % n` chunks of `L / n` (so each length is
`L / n` or `L / n + 1` and the lengths sum to `L`); and the concatenation of
the chunks in worker-index order is the original list. -/
theorem partition_balanced_split (xs : List WorkItem) (n : Nat) (h : 0 < n) :
    (array_split xs n).length = n ∧
    (array_split xs n).map List.length =
      List.replicate (xs.length % n) (xs.length / n + 1) ++
        List.replicate (n - xs.length % n) (xs.length / n) ∧
    ((array_split xs n).map List.length).sum = xs.length ∧
    (∀ c ∈ array_split xs n,
      c.length = xs.length / n ∨ c.length = xs.length / n + 1) ∧
    (array_split xs n).flatten = xs := by
  refine ⟨array_split_length xs n h, array_split_map_length xs n h, ?_, ?_, array_split_flatten xs n h⟩
  · rw [array_split_map_length xs n h, sectionSizes_sum _ _ h]
  · intro c hc
    have hmem : c.length ∈ (array_split xs n).map List.length :=
      List.mem_map_of_mem List.length hc
    rw [array_split_map_length xs n h] at hmem
    simp [sectionSizes] at hmem
    rcases hmem with ⟨_, h2⟩ | ⟨_, h2⟩
    · right; omega
    · left; omega

/-- Witness for C1 at the spec's own scenario: 10 items into 3 workers gives
chunk lengths `[4, 3, 3]` and reassembles the list. -/
theorem partition_balanced_split_witness :
    0 < 3 ∧
    ((array_split (List.replicate 10 (("i", "o") : WorkItem)) 3).length = 3 ∧
    (array_split (List.replicate 10 (("i", "o") : WorkItem)) 3).map List.length =
      List.replicate ((List.replicate 10 (("i", "o") : WorkItem)).length % 3)
        ((List.replicate 10 (("i", "o") : WorkItem)).length / 3 + 1) ++
        List.replicate (3 - (List.replicate 10 (("i", "o") : WorkItem)).length % 3)
          ((List.replicate 10 (("i", "o") : WorkItem)).length / 3) ∧
    ((array_split (List.replicate 10 (("i", "o") : WorkItem)) 3).map List.length).sum =
      (List.replicate 10 (("i", "o") : WorkItem)).length ∧
    (∀ c ∈ array_split (List.replicate 10 (("i", "o") : WorkItem)) 3,
      c.length = (List.replicate 10 (("i", "o") : WorkItem)).length / 3 ∨
        c.length = (List.replicate 10 (("i", "o") : WorkItem)).length / 3 + 1) ∧
    (array_split (List.replicate 10 (("i", "o") : WorkItem)) 3).flatten =
      List.replicate 10 (("i", "o") : WorkItem)) :=
  ⟨by decide, partition_balanced_split (List.replicate 10 (("i", "o") : WorkItem)) 3 (by decide)⟩

/-! ### The per-image transform leaf (distributed_process.py lines 19-29)

`process_single_image` wraps the whole OpenCV pipeline in `try/except`:
`cv2.imread` may return an image, return `None` (decode failure, body skipped
by the `if image is not None` guard), or some step may raise (caught, logged,
swallowed).  The outcome is external to the program, so it is an oracle. -/

/-- Outcome of the external OpenCV pipeline on one item. -/
inductive DecodeResult : Type
  | success : DecodeResult
  | decodeNone : DecodeResult
  | exn : DecodeResult
deriving DecidableEq

/-- `process_single_image(input_path, output_path)`: returns the written item
on success and `none` otherwise; it never propagates an error (the `except`
clause catches every `Exception`, and an `imread` result of `None` merely
skips the body). -/
def process_single_image (decode : WorkItem → DecodeResult) (it : WorkItem) :
    Option WorkItem :=
  match decode it with
  | .success => some it
  | .decodeNone => none
  | .exn => none

/-! ### The worker (distributed_process.py lines 32-48) -/

/-- The `for input_path, output_path in image_subset` loop of `node_task`:
returns the items visited (in loop order) and the outputs written. -/
def workerLoop (decode : WorkItem → DecodeResult) :
    List WorkItem → List WorkItem × List WorkItem
  | [] => ([], [])
  | it :: rest =>
    let out := process_single_image decode it
    let r := workerLoop decode rest
    (it :: r.1, (match out with | some o => o :: r.2 | none => r.2))

/-- One worker run: the items it visited, the outputs it wrote, and the
`results_dict[node_id] = {'count': len(image_subset), ...}` publication
(elapsed wall time is external and not modelled). -/
structure WorkerRun : Type where
  visited : List WorkItem
  written : List WorkItem
  nodeId : Nat
  count : Nat
deriving DecidableEq

/-- `node_task(node_id, image_subset, results_dict)` (lines 32-48): process
the whole subset, then publish exactly one result whose `count` is
`len(image_subset)`. -/
def node_task (decode : WorkItem → DecodeResult) (node_id : Nat)
    (image_subset : List WorkItem) : WorkerRun :=
  let r := workerLoop decode image_subset
  ⟨r.1, r.2, node_id, image_subset.length⟩

/-! ### The distributed master (distributed_process.py lines 84-105)

`main` splits the items with `np.array_split`, starts one process per node
with `node_id = i + 1` and `subset = image_subsets[i]` for `i in
range(NUM_NODES)`, and joins them all.  The workers write to disjoint keys of
`results_dict`, so after the join barrier the store's contents are
order-independent; we list them in worker-index order. -/

/-- All worker runs of one distributed execution, in worker index order. -/
def runDistributed (decode : WorkItem → DecodeResult)
    (items : List WorkItem) (numNodes : Nat) : List WorkerRun :=
  let image_subsets := array_split items numNodes
  (List.range numNodes).map
    (fun i => node_task decode (i + 1) (image_subsets.getD i []))

/-- Contents of `results_dict` after the join barrier: `(node_id, count)`
pairs, one per worker. -/
def resultsStore (decode : WorkItem → DecodeResult)
    (items : List WorkItem) (numNodes : Nat) : List (Nat × Nat) :=
  (runDistributed decode items numNodes).map (fun w => (w.nodeId, w.count))

theorem workerLoop_visited (decode : WorkItem → DecodeResult)
    (subset : List WorkItem) : (workerLoop decode subset).1 = subset := by
  induction subset with
  | nil => rfl
  | cons it rest ih => simp [workerLoop, ih]

theorem workerLoop_written (decode : WorkItem → DecodeResult)
    (subset : List WorkItem) :
    (workerLoop decode subset).2 =
      subset.filter (fun it => decode it = DecodeResult.success) := by
  induction subset with
  | nil => rfl
  | cons it rest ih =>
    simp only [workerLoop, List.filter_cons]
    cases h : decode it <;>
      simp [process_single_image, h, ih]

/-- Bridging lemma: mapping an indexed access over `range l.length` is mapping
over the list itself. -/
theorem map_getD_range {α β : Type} (l : List α) (d : α) (f : α → β) :
    (List.range l.length).map (fun i => f (l.getD i d)) = l.map f := by
  induction l with
  | nil => rfl
  | cons a tl ih =>
    rw [List.length_cons, List.range_succ_eq_map]
    simp only [List.map_cons, List.map_map, List.getD_cons_zero]
    have hfun : ((fun i => f ((a :: tl).getD i d)) ∘ Nat.succ) =
        (fun i => f (tl.getD i d)) := by
      funext i
      simp [Function.comp, List.getD_cons_succ]
    rw [hfun, ih]

theorem resultsStore_eq (decode : WorkItem → DecodeResult)
    (items : List WorkItem) (n : Nat) :
    resultsStore decode items n =
      (List.range n).map
        (fun i => (i + 1, ((array_split items n).getD i []).length)) := by
  simp [resultsStore, runDistributed, node_task]

/-- C2 (amended): after the join barrier the result store holds exactly one
`(node_id, count)` entry per `node_id` in `1..n` — the code numbers workers
`node_id = i + 1`, not `0..n-1` — in particular the key list is exactly
`[1, ..., n]` with no duplicates; the count published for worker `i + 1` is
the length of chunk `i`, so the count list is exactly the chunk-length list,
and the counts sum to the number of discovered items. -/
theorem coordinator_store_one_result_per_worker
    (decode : WorkItem → DecodeResult) (items : List WorkItem) (n : Nat)
    (h : 0 < n) :
    (resultsStore decode items n).map Prod.fst =
      (List.range n).map (fun i => i + 1) ∧
    ((resultsStore decode items n).map Prod.fst).Nodup ∧
    (resultsStore decode items n).map Prod.snd =
      (array_split items n).map List.length ∧
    ((resultsStore decode items n).map Prod.snd).sum = items.length := by
  have hkeys : (resultsStore decode items n).map Prod.fst =
      (List.range n).map (fun i => i + 1) := by
    rw [resultsStore_eq]
    simp [List.map_map, Function.comp]
  have hlen : (array_split items n).length = n := array_split_length items n h
  have hcounts : (resultsStore decode items n).map Prod.snd =
      (array_split items n).map List.length := by
    rw [resultsStore_eq, List.map_map]
    have hfun : (Prod.snd ∘
          fun i => (i + 1, ((array_split items n).getD i []).length)) =
        (fun i => ((array_split items n).getD i []).length) := rfl
    rw [hfun]
    have hbase := map_getD_range (array_split items n) [] List.length
    rw [hlen] at hbase
    exact hbase
  refine ⟨hkeys, ?_, hcounts, ?_⟩
  · rw [hkeys]
    exact (List.nodup_range n).map (fun a b hab => by omega)
  · rw [hcounts, array_split_map_length items n h, sectionSizes_sum _ _ h]

/-- Witness for C2's amended statement at `n = 2`, three items. -/
theorem coordinator_store_one_result_per_worker_witness :
    0 < 2 ∧
    ((resultsStore (fun _ => DecodeResult.success)
        [("a", "x"), ("b", "y"), ("c", "z")] 2).map Prod.fst =
      (List.range 2).map (fun i => i + 1) ∧
    ((resultsStore (fun _ => DecodeResult.success)
        [("a", "x"), ("b", "y"), ("c", "z")] 2).map Prod.fst).Nodup ∧
    (resultsStore (fun _ => DecodeResult.success)
        [("a", "x"), ("b", "y"), ("c", "z")] 2).map Prod.snd =
      (array_split [(("a", "x") : WorkItem), ("b", "y"), ("c", "z")] 2).map
        List.length ∧
    ((resultsStore (fun _ => DecodeResult.success)
        [("a", "x"), ("b", "y"), ("c", "z")] 2).map Prod.snd).sum =
      ([(("a", "x") : WorkItem), ("b", "y"), ("c", "z")]).length) :=
  ⟨by decide,
    coordinator_store_one_result_per_worker (fun _ => DecodeResult.success)
      [("a", "x"), ("b", "y"), ("c", "z")] 2 (by decide)⟩

/-- Counterexample to C2 as stated: with two workers the store's key list is
`[1, 2]` (the code publishes under `node_id = i + 1`), so there is no
WorkerResult for `worker_id = 0` even though `0 ∈ 0..N-1`. -/
theorem coordinator_store_ids_counterexample :
    (resultsStore (fun _ => DecodeResult.success)
        [("a", "x"), ("b", "y"), ("c", "z")] 2).map Prod.fst = [1, 2] ∧
    0 ∉ (resultsStore (fun _ => DecodeResult.success)
        [("a", "x"), ("b", "y"), ("c", "z")] 2).map Prod.fst := by
  refine ⟨rfl, ?_⟩
  intro hmem
  rw [show (resultsStore (fun _ => DecodeResult.success)
        [("a", "x"), ("b", "y"), ("c", "z")] 2).map Prod.fst = [1, 2] from rfl] at hmem
  simp at hmem

/-- C3: a Transform failure on an item `k` of the chunk (decode failure or a
raised error) does not abort the worker: the loop still visits every item of
the chunk in order, the published count is still the full chunk length, and
only the set of written outputs shrinks — it is exactly the successful items,
and `k` is not among them. -/
theorem worker_tolerates_item_failure (decode : WorkItem → DecodeResult)
    (node_id : Nat) (chunk : List WorkItem) (k : WorkItem)
    (_hk : k ∈ chunk) (hfail : decode k ≠ DecodeResult.success) :
    (node_task decode node_id chunk).visited = chunk ∧
    (node_task decode node_id chunk).count = chunk.length ∧
    (node_task decode node_id chunk).written =
      chunk.filter (fun it => decode it = DecodeResult.success) ∧
    k ∉ (node_task decode node_id chunk).written := by
  refine ⟨workerLoop_visited decode chunk, rfl, workerLoop_written decode chunk, ?_⟩
  intro hmem
  have : (node_task decode node_id chunk).written =
      chunk.filter (fun it => decode it = DecodeResult.success) :=
    workerLoop_written decode chunk
  rw [this] at hmem
  have := List.of_mem_filter hmem
  simp at this
  exact hfail this

/-- Witness for C3: a three-item chunk whose middle item raises inside the
transform; the worker still reports count 3 and writes the other two. -/
theorem worker_tolerates_item_failure_witness :
    (("bad", "b") : WorkItem) ∈
        [(("g1", "o1") : WorkItem), ("bad", "b"), ("g2", "o2")] ∧
    (fun it => if it = (("bad", "b") : WorkItem) then DecodeResult.exn
        else DecodeResult.success) ("bad", "b") ≠ DecodeResult.success ∧
    ((node_task
        (fun it => if it = (("bad", "b") : WorkItem) then DecodeResult.exn
          else DecodeResult.success) 1
        [("g1", "o1"), ("bad", "b"), ("g2", "o2")]).visited =
      [("g1", "o1"), ("bad", "b"), ("g2", "o2")] ∧
    (node_task
        (fun it => if it = (("bad", "b") : WorkItem) then DecodeResult.exn
          else DecodeResult.success) 1
        [("g1", "o1"), ("bad", "b"), ("g2", "o2")]).count =
      ([(("g1", "o1") : WorkItem), ("bad", "b"), ("g2", "o2")]).length ∧
    (node_task
        (fun it => if it = (("bad", "b") : WorkItem) then DecodeResult.exn
          else DecodeResult.success) 1
        [("g1", "o1"), ("bad", "b"), ("g2", "o2")]).written =
      ([(("g1", "o1") : WorkItem), ("bad", "b"), ("g2", "o2")]).filter
        (fun it =>
          (fun it => if it = (("bad", "b") : WorkItem) then DecodeResult.exn
            else DecodeResult.success) it = DecodeResult.success) ∧
    (("bad", "b") : WorkItem) ∉
      (node_task
          (fun it => if it = (("bad", "b") : WorkItem) then DecodeResult.exn
            else DecodeResult.success) 1
          [("g1", "o1"), ("bad", "b"), ("g2", "o2")]).written) :=
  ⟨by decide, by decide,
    worker_tolerates_item_failure
      (fun it => if it = (("bad", "b") : WorkItem) then DecodeResult.exn
        else DecodeResult.success) 1
      [("g1", "o1"), ("bad", "b"), ("g2", "o2")] ("bad", "b")
      (by decide) (by decide)⟩

/-! ### Python division and the distributed `main` control flow
(distributed_process.py lines 71-119)

`main` runs, in this order: the sequential baseline pass calling
`process_single_image` on every discovered item (lines 74-75), then
`np.array_split(all_image_paths, NUM_NODES)` (line 84, raising `ValueError:
number sections must be larger than 0.` when the node count is zero), then
starts one process per node and joins them all (lines 96-105), prints the
per-node summary sorted by node id (lines 113-114), and finally computes
`efficiency = sequential_time / total_distributed_time` (line 118) — Python's
`/` raises `ZeroDivisionError` when the divisor is exactly zero.

We embed the run as the ordered list of its observable events; worker events
appear in worker-index order (the workers write disjoint keys, and no claim
here depends on their interleaving). -/

/-- Python exceptions reachable from `main`. -/
inductive PyErr : Type
  | valueErrorSplit : PyErr
  | zeroDivisionError : PyErr
deriving DecidableEq

/-- Python `/` on the (rational-valued) measured times: `ZeroDivisionError`
on a zero divisor, the exact quotient otherwise. -/
def pyDiv (a b : ℚ) : Except PyErr ℚ :=
  if b = 0 then .error .zeroDivisionError else .ok (a / b)

/-- Observable events of one distributed `main` run. -/
inductive Event : Type
  | transform : WorkItem → Event
  | publish : Nat → Nat → Event
  | reportLine : Nat → Nat → Event
  | efficiencyCalc : ℚ → Event
  | raiseExc : PyErr → Event
deriving DecidableEq

/-- Events of `node_task(node_id, subset, results_dict)`: one transform call
per item in order, then the single publication of `{'count': len(subset)}`. -/
def workerEvents (node_id : Nat) (subset : List WorkItem) : List Event :=
  subset.map Event.transform ++ [Event.publish node_id subset.length]

/-- The ordered event trace of `main` for a discovered item list, a node
count, and the two measured wall-clock times. -/
def mainTrace (items : List WorkItem) (n : Nat) (seqTime parTime : ℚ) :
    List Event :=
  items.map Event.transform ++
    (if n = 0 then [Event.raiseExc .valueErrorSplit]
     else
       ((List.range n).map
          (fun i => workerEvents (i + 1) ((array_split items n).getD i []))).flatten
       ++ (List.range n).map
            (fun i => Event.reportLine (i + 1)
              ((array_split items n).getD i []).length)
       ++ (match pyDiv seqTime parTime with
           | .error e => [Event.raiseExc e]
           | .ok v => [Event.efficiencyCalc v]))

/-- Is this event the efficiency computation (or its zero-division abort)? -/
def isEffEvent : Event → Bool
  | .efficiencyCalc _ => true
  | .raiseExc .zeroDivisionError => true
  | _ => false

/-- Is this event a worker's result publication? -/
def isPublishEvent : Event → Bool
  | .publish _ _ => true
  | _ => false

theorem filter_isEffEvent_transforms (l : List WorkItem) :
    (l.map Event.transform).filter isEffEvent = [] := by
  induction l with
  | nil => rfl
  | cons a tl ih => simp [isEffEvent, ih]

theorem filter_isPublishEvent_transforms (l : List WorkItem) :
    (l.map Event.transform).filter isPublishEvent = [] := by
  induction l with
  | nil => rfl
  | cons a tl ih => simp [isPublishEvent, ih]

theorem workerEvents_filter_isEffEvent (node_id : Nat) (subset : List WorkItem) :
    (workerEvents node_id subset).filter isEffEvent = [] := by
  simp [workerEvents, List.filter_append, filter_isEffEvent_transforms, isEffEvent]

theorem workerEvents_filter_isPublishEvent (node_id : Nat)
    (subset : List WorkItem) :
    (workerEvents node_id subset).filter isPublishEvent =
      [Event.publish node_id subset.length] := by
  simp [workerEvents, List.filter_append, filter_isPublishEvent_transforms,
    isPublishEvent]

theorem workersFlatten_filter_isEffEvent (is : List Nat)
    (c : Nat → List WorkItem) :
    ((is.map (fun i => workerEvents (i + 1) (c i))).flatten).filter isEffEvent
      = [] := by
  induction is with
  | nil => rfl
  | cons a tl ih =>
    simp only [List.map_cons, List.flatten_cons, List.filter_append,
      workerEvents_filter_isEffEvent, List.nil_append, ih]

theorem workersFlatten_filter_isPublishEvent (is : List Nat)
    (c : Nat → List WorkItem) :
    (((is.map (fun i => workerEvents (i + 1) (c i))).flatten).filter
        isPublishEvent).length = is.length := by
  induction is with
  | nil => rfl
  | cons a tl ih =>
    simp only [List.map_cons, List.flatten_cons, List.filter_append,
      workerEvents_filter_isPublishEvent, List.length_append,
      List.length_cons, List.length_nil, ih, List.length_cons]
    omega

theorem reportLines_filter_isEffEvent (is : List Nat) (f : Nat → Event)
    (h : ∀ i ∈ is, isEffEvent (f i) = false) :
    (is.map f).filter isEffEvent = [] := by
  induction is with
  | nil => rfl
  | cons a tl ih =>
    simp only [List.map_cons, List.filter_cons, h a (List.mem_cons_self a tl)]
    exact ih (fun i hi => h i (List.mem_cons_of_mem a hi))

theorem reportLines_filter_isPublishEvent (is : List Nat) (f : Nat → Event)
    (h : ∀ i ∈ is, isPublishEvent (f i) = false) :
    (is.map f).filter isPublishEvent = [] := by
  induction is with
  | nil => rfl
  | cons a tl ih =>
    simp only [List.map_cons, List.filter_cons, h a (List.mem_cons_self a tl)]
    exact ih (fun i hi => h i (List.mem_cons_of_mem a hi))

/-- Everything `main` does after the baseline and before the efficiency
computation, for a positive node count: worker runs (in index order) and the
sorted per-node report. -/
def mainBody (items : List WorkItem) (n : Nat) : List Event :=
  items.map Event.transform ++
    ((List.range n).map
       (fun i => workerEvents (i + 1) ((array_split items n).getD i []))).flatten ++
    (List.range n).map
      (fun i => Event.reportLine (i + 1) ((array_split items n).getD i []).length)

/-- Counterexample to C5: with one discovered item and a node count of 0, the
run's first event is a Transform call (the sequential baseline pass, lines
74-75) and only then does `np.array_split` raise; the failure is not raised
before the first Transform call as claimed. -/
theorem zero_workers_counterexample :
    mainTrace [("a", "x")] 0 1 1 =
      [Event.transform ("a", "x"), Event.raiseExc PyErr.valueErrorSplit] ∧
    (mainTrace [("a", "x")] 0 1 1).head? ≠
      some (Event.raiseExc PyErr.valueErrorSplit) := by
  refine ⟨rfl, ?_⟩
  decide

/-- C5 (amended): with a configured node count of 0 the run does fail fast in
the sense that no worker is dispatched and nothing after the split runs — the
trace ends at the `ValueError` raised by `np.array_split` — but the failure
comes only after the sequential baseline pass has already called the
Transform once per discovered item. -/
theorem zero_workers_raise_after_baseline (items : List WorkItem)
    (s p : ℚ) :
    mainTrace items 0 s p =
      items.map Event.transform ++ [Event.raiseExc PyErr.valueErrorSplit] := by
  simp [mainTrace]

/-- C6: for every positive node count, the efficiency computation is the
unique final event of the run — it happens exactly once, strictly after all
`n` worker result publications (and after the report), its value is
`sequential_time / parallel_time`, and a `parallel_time` of exactly zero
raises `ZeroDivisionError` (Python `/`) instead of being coerced to a
value. -/
theorem efficiency_once_after_join_no_silent_div0
    (items : List WorkItem) (n : Nat) (s p : ℚ) (h : 0 < n) :
    mainTrace items n s p = mainBody items n ++
      [if p = 0 then Event.raiseExc PyErr.zeroDivisionError
       else Event.efficiencyCalc (s / p)] ∧
    (mainBody items n).filter isEffEvent = [] ∧
    ((mainBody items n).filter isPublishEvent).length = n := by
  have hn : n ≠ 0 := by omega
  refine ⟨?_, ?_, ?_⟩
  · by_cases hp : p = 0 <;>
      simp [mainTrace, mainBody, hn, pyDiv, hp, List.append_assoc]
  · have hr := reportLines_filter_isEffEvent (List.range n)
      (fun i => Event.reportLine (i + 1) ((array_split items n).getD i []).length)
      (fun i _ => rfl)
    simp only [mainBody, List.filter_append, filter_isEffEvent_transforms,
      workersFlatten_filter_isEffEvent, hr, List.append_nil, List.nil_append]
  · have hr := reportLines_filter_isPublishEvent (List.range n)
      (fun i => Event.reportLine (i + 1) ((array_split items n).getD i []).length)
      (fun i _ => rfl)
    simp only [mainBody, List.filter_append, filter_isPublishEvent_transforms,
      hr, workersFlatten_filter_isPublishEvent, List.length_append,
      List.length_nil, List.length_range, List.nil_append, List.append_nil]

/-- Witness for C6 with two nodes, one item, and a zero parallel time: the
sole terminal event is the `ZeroDivisionError`, after both publications. -/
theorem efficiency_once_after_join_no_silent_div0_witness :
    0 < 2 ∧
    (mainTrace [("a", "x")] 2 1 0 = mainBody [("a", "x")] 2 ++
      [if (0 : ℚ) = 0 then Event.raiseExc PyErr.zeroDivisionError
       else Event.efficiencyCalc (1 / 0)] ∧
    (mainBody [("a", "x")] 2).filter isEffEvent = [] ∧
    ((mainBody [("a", "x")] 2).filter isPublishEvent).length = 2) :=
  ⟨by decide,
    efficiency_once_after_join_no_silent_div0 [("a", "x")] 2 1 0 (by decide)⟩

/-! ### Discovery (parallel_process.py lines 21-50; the same loop is inlined
in distributed_process.py lines 54-67 and sequential_process.py lines 21-53)

`get_all_image_paths(input_dir, output_dir)` creates `output_dir` if absent,
then iterates `os.listdir(input_dir)` — which raises `FileNotFoundError`
when `input_dir` does not exist — keeps only entries for which
`os.path.isdir` holds, creates the mirrored class output folder if absent,
and emits one `(input_path, output_path)` pair per entry of the class folder
(no file-type filtering).  The filesystem is modelled as the input root's
listing (in `os.listdir` order, `none` when the root is missing) plus the set
of output directories that exist, in creation order. -/

/-- One entry directly under the input root: a class directory with its file
listing, or a non-directory entry. -/
inductive FSEntry : Type
  | dir : String → List String → FSEntry
  | file : String → FSEntry
deriving DecidableEq

/-- The filesystem as Discovery observes and mutates it. -/
structure FileSystem : Type where
  inputRoot : Option (List FSEntry)
  outputDirs : List String
deriving DecidableEq

/-- The OS error Discovery can raise. -/
inductive OSErr : Type
  | fileNotFoundError : OSErr
deriving DecidableEq

/-- `if not os.path.exists(d): os.makedirs(d)`. -/
def mkdirs (d : String) (ds : List String) : List String :=
  if d ∈ ds then ds else ds ++ [d]

/-- The `for class_folder in os.listdir(input_dir)` loop, over the listing
and the existing output directories. -/
def discoverEntries (input_dir output_dir : String) :
    List FSEntry → List String → List WorkItem × List String
  | [], ds => ([], ds)
  | .file _ :: rest, ds => discoverEntries input_dir output_dir rest ds
  | .dir nm files :: rest, ds =>
    let output_class_folder := output_dir ++ "/" ++ nm
    let ds1 := mkdirs output_class_folder ds
    let items := files.map
      (fun f =>
        (input_dir ++ "/" ++ nm ++ "/" ++ f, output_class_folder ++ "/" ++ f))
    let r := discoverEntries input_dir output_dir rest ds1
    (items ++ r.1, r.2)

/-- `get_all_image_paths` as a state-passing function: the returned
`Except` is the discovered ordered WorkItemSet or the raised error, paired
with the filesystem after Discovery's directory-creation side effects. -/
def get_all_image_paths (input_dir output_dir : String) (fs : FileSystem) :
    Except OSErr (List WorkItem) × FileSystem :=
  let ds0 := mkdirs output_dir fs.outputDirs
  match fs.inputRoot with
  | none => (.error .fileNotFoundError, ⟨none, ds0⟩)
  | some entries =>
    let r := discoverEntries input_dir output_dir entries ds0
    (.ok r.1, ⟨some entries, r.2⟩)

/-- The mirrored output folders of the class directories in a listing. -/
def classDirs (output_dir : String) (es : List FSEntry) : List String :=
  es.filterMap
    (fun e => match e with
      | .dir nm _ => some (output_dir ++ "/" ++ nm)
      | .file _ => none)

theorem mkdirs_of_mem {d : String} {ds : List String} (h : d ∈ ds) :
    mkdirs d ds = ds := by
  simp [mkdirs, h]

theorem mem_mkdirs_self (d : String) (ds : List String) : d ∈ mkdirs d ds := by
  by_cases h : d ∈ ds <;> simp [mkdirs, h]

theorem mem_mkdirs_of_mem {x : String} (d : String) {ds : List String}
    (h : x ∈ ds) : x ∈ mkdirs d ds := by
  by_cases hd : d ∈ ds <;> simp [mkdirs, hd, h]

theorem discoverEntries_fst_const (i o : String) (es : List FSEntry)
    (ds ds' : List String) :
    (discoverEntries i o es ds).1 = (discoverEntries i o es ds').1 := by
  induction es generalizing ds ds' with
  | nil => rfl
  | cons e rest ih =>
    cases e with
    | file nm => exact ih ds ds'
    | dir nm files =>
      simp only [discoverEntries]
      rw [ih (mkdirs (o ++ "/" ++ nm) ds) (mkdirs (o ++ "/" ++ nm) ds')]

theorem discoverEntries_mem_snd (i o : String) (es : List FSEntry)
    {x : String} {ds : List String} (h : x ∈ ds) :
    x ∈ (discoverEntries i o es ds).2 := by
  induction es generalizing ds with
  | nil => exact h
  | cons e rest ih =>
    cases e with
    | file nm => exact ih h
    | dir nm files =>
      simp only [discoverEntries]
      exact ih (mem_mkdirs_of_mem _ h)

theorem discoverEntries_classDirs_mem (i o : String) (es : List FSEntry)
    (ds : List String) :
    ∀ d ∈ classDirs o es, d ∈ (discoverEntries i o es ds).2 := by
  induction es generalizing ds with
  | nil => intro d hd; simp [classDirs] at hd
  | cons e rest ih =>
    intro d hd
    cases e with
    | file nm =>
      simp only [classDirs, List.filterMap_cons] at hd
      exact ih ds d hd
    | dir nm files =>
      simp only [classDirs, List.filterMap_cons] at hd
      simp only [discoverEntries]
      rcases List.mem_cons.mp hd with heq | hmem
      · subst heq
        exact discoverEntries_mem_snd i o rest (mem_mkdirs_self _ ds)
      · exact ih _ d hmem

theorem discoverEntries_snd_stable (i o : String) (es : List FSEntry)
    (ds : List String) (h : ∀ d ∈ classDirs o es, d ∈ ds) :
    (discoverEntries i o es ds).2 = ds := by
  induction es generalizing ds with
  | nil => rfl
  | cons e rest ih =>
    cases e with
    | file nm =>
      refine ih ds (fun d hd => h d ?_)
      simp [classDirs, List.filterMap_cons] at hd ⊢
      exact hd
    | dir nm files =>
      have hhead : (o ++ "/" ++ nm) ∈ ds := by
        refine h _ ?_
        simp [classDirs, List.filterMap_cons]
      simp only [discoverEntries, mkdirs_of_mem hhead]
      refine ih ds (fun d hd => h d ?_)
      simp [classDirs, List.filterMap_cons] at hd ⊢
      right
      exact hd

/-- Counterexample to C4: on a missing input root (and nothing else on disk),
Discovery raises `FileNotFoundError` — `os.listdir` of a nonexistent
directory — instead of proceeding with an empty WorkItemSet. -/
theorem missing_root_counterexample :
    (get_all_image_paths "/content/data_set" "output_distributed"
        ⟨none, []⟩).1 = Except.error OSErr.fileNotFoundError ∧
    (get_all_image_paths "/content/data_set" "output_distributed"
        ⟨none, []⟩).1 ≠ Except.ok [] := by
  refine ⟨rfl, ?_⟩
  intro h
  rw [show (get_all_image_paths "/content/data_set" "output_distributed"
      ⟨none, []⟩).1 = Except.error OSErr.fileNotFoundError from rfl] at h
  exact Except.noConfusion h

/-- C4 (amended): if the input root directory does not exist, Discovery does
not proceed silently: after creating the top-level output directory it raises
`FileNotFoundError` at `os.listdir(input_dir)`, so the run fails instead of
continuing with an empty WorkItemSet. -/
theorem missing_root_raises (input_dir output_dir : String)
    (fs : FileSystem) (h : fs.inputRoot = none) :
    (get_all_image_paths input_dir output_dir fs).1 =
      Except.error OSErr.fileNotFoundError ∧
    (get_all_image_paths input_dir output_dir fs).2 =
      ⟨none, mkdirs output_dir fs.outputDirs⟩ := by
  have hrun : get_all_image_paths input_dir output_dir fs =
      (Except.error OSErr.fileNotFoundError,
        ⟨none, mkdirs output_dir fs.outputDirs⟩) := by
    simp only [get_all_image_paths, h]
  rw [hrun]
  exact ⟨rfl, rfl⟩

/-- Witness for C4's amended statement. -/
theorem missing_root_raises_witness :
    (FileSystem.mk none []).inputRoot = none ∧
    ((get_all_image_paths "/content/data_set" "output_parallel"
        ⟨none, []⟩).1 = Except.error OSErr.fileNotFoundError ∧
    (get_all_image_paths "/content/data_set" "output_parallel"
        ⟨none, []⟩).2 =
      ⟨none, mkdirs "output_parallel" []⟩) :=
  ⟨rfl, missing_root_raises "/content/data_set" "output_parallel" ⟨none, []⟩ rfl⟩

/-- C8: Discovery is idempotent as a function of the filesystem: running
`get_all_image_paths` a second time, on the filesystem state the first run
left behind, returns the identical ordered WorkItemSet (or the identical
error) and leaves the filesystem unchanged — re-runs on an unchanged input
tree produce a byte-identical split. -/
theorem discovery_idempotent (input_dir output_dir : String)
    (fs : FileSystem) :
    get_all_image_paths input_dir output_dir
        (get_all_image_paths input_dir output_dir fs).2 =
      get_all_image_paths input_dir output_dir fs := by
  cases hroot : fs.inputRoot with
  | none =>
    simp only [get_all_image_paths, hroot]
    rw [mkdirs_of_mem (mem_mkdirs_self output_dir fs.outputDirs)]
  | some es =>
    simp only [get_all_image_paths, hroot]
    have hmem : output_dir ∈
        (discoverEntries input_dir output_dir es
          (mkdirs output_dir fs.outputDirs)).2 :=
      discoverEntries_mem_snd input_dir output_dir es
        (mem_mkdirs_self output_dir fs.outputDirs)
    rw [mkdirs_of_mem hmem]
    have hstable : (discoverEntries input_dir output_dir es
        (discoverEntries input_dir output_dir es
          (mkdirs output_dir fs.outputDirs)).2).2 =
        (discoverEntries input_dir output_dir es
          (mkdirs output_dir fs.outputDirs)).2 :=
      discoverEntries_snd_stable input_dir output_dir es _
        (discoverEntries_classDirs_mem input_dir output_dir es _)
    have hfst : (discoverEntries input_dir output_dir es
        (discoverEntries input_dir output_dir es
          (mkdirs output_dir fs.outputDirs)).2).1 =
        (discoverEntries input_dir output_dir es
          (mkdirs output_dir fs.outputDirs)).1 :=
      discoverEntries_fst_const input_dir output_dir es _ _
    rw [hstable, hfst]

/-- Skipping a non-directory entry of the root listing: the `os.path.isdir`
guard makes the loop ignore it wherever it occurs. -/
theorem discoverEntries_skip_file (i o nm : String) (pre post : List FSEntry)
    (ds : List String) :
    discoverEntries i o (pre ++ FSEntry.file nm :: post) ds =
      discoverEntries i o (pre ++ post) ds := by
  induction pre generalizing ds with
  | nil => rfl
  | cons e rest ih =>
    cases e with
    | file s =>
      simp only [List.cons_append, discoverEntries]
      exact ih ds
    | dir nm' files =>
      simp only [List.cons_append, discoverEntries, List.append_eq]
      rw [ih]

/-- C9: an entry directly under the input root that is not a directory is
skipped entirely by Discovery: deleting it from the root listing changes
neither the discovered WorkItemSet nor the set of output folders created (no
mirrored output folder is made for it). -/
theorem root_nondir_entry_skipped (input_dir output_dir nm : String)
    (pre post : List FSEntry) (ds : List String) :
    (get_all_image_paths input_dir output_dir
        ⟨some (pre ++ FSEntry.file nm :: post), ds⟩).1 =
      (get_all_image_paths input_dir output_dir
        ⟨some (pre ++ post), ds⟩).1 ∧
    (get_all_image_paths input_dir output_dir
        ⟨some (pre ++ FSEntry.file nm :: post), ds⟩).2.outputDirs =
      (get_all_image_paths input_dir output_dir
        ⟨some (pre ++ post), ds⟩).2.outputDirs := by
  simp only [get_all_image_paths]
  rw [discoverEntries_skip_file]
  exact ⟨rfl, rfl⟩

/-! ### The summary report (distributed_process.py lines 112-114)

`for node_id, result in sorted(results_dict.items())`: Python's `sorted`
orders the `(node_id, result)` tuples; no two entries share a `node_id`
(workers write disjoint keys), so the comparison is decided by the key. -/

/-- Order on store entries by worker id (the tuple comparison `sorted`
applies, restricted to distinct keys). -/
def keyLE (a b : Nat × Nat) : Prop := a.1 ≤ b.1

/-- Strict key order, used to show sorted permutations coincide. -/
def keyLT (a b : Nat × Nat) : Prop := a.1 < b.1

instance : DecidableRel keyLE := fun a b => Nat.decLe a.1 b.1

instance : IsTotal (Nat × Nat) keyLE := ⟨fun a b => Nat.le_total a.1 b.1⟩

instance : IsTrans (Nat × Nat) keyLE := ⟨fun _ _ _ h1 h2 => Nat.le_trans h1 h2⟩

instance : IsAntisymm (Nat × Nat) keyLT :=
  ⟨fun _ _ h1 h2 => absurd (Nat.lt_trans h1 h2) (Nat.lt_irrefl _)⟩

/-- `sorted(results_dict.items())`: the reported per-node listing of
`(node_id, count)` entries. -/
def reportListing (store : List (Nat × Nat)) : List (Nat × Nat) :=
  List.insertionSort keyLE store

/-- C7: the reported RunSummary listing is deterministic in worker-id order:
for any two arrival orders of the same worker results (permutations of one
another, worker ids distinct), the reported listing is identical, and it is
sorted by worker id. -/
theorem report_sorted_by_worker_id (s1 s2 : List (Nat × Nat))
    (hperm : s1.Perm s2) (hnodup : (s1.map Prod.fst).Nodup) :
    reportListing s1 = reportListing s2 ∧
    (reportListing s1).Sorted keyLE := by
  have hs1 : (reportListing s1).Sorted keyLE :=
    List.sorted_insertionSort keyLE s1
  have hs2 : (reportListing s2).Sorted keyLE :=
    List.sorted_insertionSort keyLE s2
  have hp1 : (reportListing s1).Perm s1 := List.perm_insertionSort keyLE s1
  have hp2 : (reportListing s2).Perm s2 := List.perm_insertionSort keyLE s2
  have hp : (reportListing s1).Perm (reportListing s2) :=
    (hp1.trans hperm).trans hp2.symm
  have hkeys1 : ((reportListing s1).map Prod.fst).Nodup :=
    ((hp1.map Prod.fst).nodup_iff).mpr hnodup
  have hkeys2 : ((reportListing s2).map Prod.fst).Nodup :=
    ((hp2.map Prod.fst).nodup_iff).mpr
      (((hperm.map Prod.fst).nodup_iff).mp hnodup)
  have hne1 : (reportListing s1).Pairwise (fun a b => a.1 ≠ b.1) :=
    (List.pairwise_map).mp hkeys1
  have hne2 : (reportListing s2).Pairwise (fun a b => a.1 ≠ b.1) :=
    (List.pairwise_map).mp hkeys2
  have hlt1 : (reportListing s1).Sorted keyLT :=
    hs1.imp₂ (fun _ _ hle hne => Nat.lt_of_le_of_ne hle hne) hne1
  have hlt2 : (reportListing s2).Sorted keyLT :=
    hs2.imp₂ (fun _ _ hle hne => Nat.lt_of_le_of_ne hle hne) hne2
  exact ⟨List.eq_of_perm_of_sorted hp hlt1 hlt2, hs1⟩

/-- Witness for C7: results arriving as node 2 before node 1 report the same
sorted listing as the reverse arrival order. -/
theorem report_sorted_by_worker_id_witness :
    ([(2, 3), (1, 4)] : List (Nat × Nat)).Perm [(1, 4), (2, 3)] ∧
    (([(2, 3), (1, 4)] : List (Nat × Nat)).map Prod.fst).Nodup ∧
    (reportListing [(2, 3), (1, 4)] = reportListing [(1, 4), (2, 3)] ∧
      (reportListing [(2, 3), (1, 4)]).Sorted keyLE) :=
  ⟨by decide, by decide,
    report_sorted_by_worker_id [(2, 3), (1, 4)] [(1, 4), (2, 3)]
      (by decide) (by decide)⟩

/-! ### The thread-pool sweep (parallel_process.py lines 17-18, 89-123)

The sweep loop measures one wall-clock time per worker count in
`WORKER_COUNTS = [1, 2, 4, 8]` and appends `{'workers': ..., 'time': ...}` to
`results`; the speedup table then takes `baseline_time = results[0]['time']`
and prints `speedup = baseline_time / res['time']` for each row.  Measured
times are inputs `t : worker count → time`. -/

/-- `WORKER_COUNTS = [1, 2, 4, 8]` (parallel_process.py line 18). -/
def WORKER_COUNTS : List Nat := [1, 2, 4, 8]

/-- One entry of `results`: `{'workers': ..., 'time': ...}`. -/
structure SweepEntry : Type where
  workers : Nat
  time : ℚ
deriving DecidableEq

/-- The `results` list built by the sweep loop, in sweep order. -/
def sweepResults (t : Nat → ℚ) : List SweepEntry :=
  WORKER_COUNTS.map (fun w => ⟨w, t w⟩)

/-- One printed row of the speedup table. -/
structure SpeedupRow : Type where
  workers : Nat
  time : ℚ
  speedup : Except PyErr ℚ

/-- Lines 109-123: `baseline_time = results[0]['time']`;
`speedup = baseline_time / time_taken` for each row (Python `/`). -/
def speedupTable (results : List SweepEntry) : List SpeedupRow :=
  let baseline_time := (results.getD 0 ⟨0, 0⟩).time
  results.map
    (fun res => ⟨res.workers, res.time, pyDiv baseline_time res.time⟩)

/-- C10: the sweep's speedups are computed relative to `results[0]` — the
measured time of the first swept configuration, the 1-worker pool run — and
not relative to a separate zero-concurrency sequential pass: every row
divides the 1-worker time by that row's own time, and whenever the 1-worker
time is nonzero the first row's reported speedup is exactly `1`. -/
theorem sweep_speedup_relative_to_first_row (t : Nat → ℚ) (h : t 1 ≠ 0) :
    speedupTable (sweepResults t) =
      WORKER_COUNTS.map (fun w => ⟨w, t w, pyDiv (t 1) (t w)⟩) ∧
    (speedupTable (sweepResults t)).head? =
      some ⟨1, t 1, Except.ok 1⟩ := by
  constructor
  · simp [speedupTable, sweepResults, WORKER_COUNTS]
  · simp [speedupTable, sweepResults, WORKER_COUNTS, pyDiv, h, div_self h]

/-- Witness for C10 with all measured times equal to one second. -/
theorem sweep_speedup_relative_to_first_row_witness :
    ((fun _ => (1 : ℚ)) 1 ≠ 0) ∧
    (speedupTable (sweepResults (fun _ => (1 : ℚ))) =
      WORKER_COUNTS.map
        (fun w => ⟨w, (fun _ => (1 : ℚ)) w,
          pyDiv ((fun _ => (1 : ℚ)) 1) ((fun _ => (1 : ℚ)) w)⟩) ∧
    (speedupTable (sweepResults (fun _ => (1 : ℚ)))).head? =
      some ⟨1, (fun _ => (1 : ℚ)) 1, Except.ok 1⟩) :=
  ⟨by norm_num,
    sweep_speedup_relative_to_first_row (fun _ => (1 : ℚ)) (by norm_num)⟩
